import Mathlib

/-!
Formal model of the test-sequence runner in src/main.py: the step data model
(StepObject), the function registry built by load_test_functions, and the
execution engine run_sequence, together with theorems settling the
specification claims about them.

Modelling conventions:
- Python strings are Lean String values; strip and lower are modelled over the
  ASCII range, which covers every text the claims mention.
- Python int() and float() applied to stripped text are modelled by pyIntParse
  and pyFloatParse; float values are modelled as exact fractions plus the
  special values inf and nan (the engine never computes with float values).
- Python dicts are association lists with dict-style insert, which updates an
  existing key in place and appends a fresh key at the end.
- uuid.uuid4 is modelled as a fresh-identifier counter: each creation mints an
  identifier never minted before, which is the only property the code uses.
- A loaded test module is modelled as a SourceUnit: its filename plus either a
  load error or its namespace, a list of named attributes in dir() order.
-/

/-- Whitespace characters recognised by the Python str.strip method (ASCII model). -/
def pyIsSpace (c : Char) : Bool :=
  c = ' ' || c = '\t' || c = '\n' || c = '\r' || c = Char.ofNat 11 || c = Char.ofNat 12

/-- Model of the Python str.strip method: drop whitespace at both ends. -/
def pyStrip (s : String) : String :=
  String.mk (((s.toList.dropWhile pyIsSpace).reverse.dropWhile pyIsSpace).reverse)

/-- Lowercase one character (ASCII model of the Python str.lower method). -/
def asciiLowerChar (c : Char) : Char :=
  if c.isUpper then Char.ofNat (c.toNat + 32) else c

/-- Model of the Python str.lower method (ASCII model). -/
def pyLower (s : String) : String :=
  String.mk (s.toList.map asciiLowerChar)

/-- The string of one ASCII quote character, used in rendered messages. -/
def asciiQuote : String :=
  String.mk [Char.ofNat 39]

/-- True when the string has no leading and no trailing whitespace: neither the
first nor the last character is whitespace. -/
def noEdgeSpace (s : String) : Bool :=
  !pyIsSpace (s.toList.headD 'x') && !pyIsSpace (s.toList.reverse.headD 'x')

/-- Numeric value of a list of decimal digit characters. -/
def natOfDigits (ds : List Char) : Nat :=
  ds.foldl (fun a c => a * 10 + (c.toNat - 48)) 0

/-- Checks the tail of a digit group: digits with single underscores between digits. -/
def digitsUAux : List Char → Bool
  | [] => true
  | ['_'] => false
  | '_' :: c :: rest => c.isDigit && digitsUAux (c :: rest)
  | c :: rest => c.isDigit && digitsUAux rest

/-- A valid Python digit group: nonempty digits, underscores only between digits. -/
def validDigitsU (ds : List Char) : Bool :=
  match ds with
  | [] => false
  | c :: rest => c.isDigit && digitsUAux rest

/-- Remove the underscore digit separators from a digit group. -/
def dropU (ds : List Char) : List Char :=
  ds.filter (fun c => c != '_')

/-- Model of the Python int() builtin on stripped text: optional sign followed by
a valid digit group; any other text raises ValueError, modelled as none. -/
def pyIntParse (s : String) : Option Int :=
  match s.toList with
  | '+' :: rest => if validDigitsU rest then some (Int.ofNat (natOfDigits (dropU rest))) else none
  | '-' :: rest => if validDigitsU rest then some (-(Int.ofNat (natOfDigits (dropU rest)))) else none
  | ds => if validDigitsU ds then some (Int.ofNat (natOfDigits (dropU ds))) else none

/-- A Python float value: an exact fraction num over den, a signed infinity, or
nan. The engine never performs float arithmetic or float comparison, so neither
rounding nor fraction normalisation is modelled. -/
inductive PyFloat
  | finite (num : Int) (den : Nat)
  | infinite (neg : Bool)
  | nan
deriving DecidableEq

/-- Split a character list at the first occurrence of a separator character. -/
def splitAtFirst (c : Char) (l : List Char) : List Char × Option (List Char) :=
  match l.span (fun x => x != c) with
  | (pre, []) => (pre, none)
  | (pre, _ :: post) => (pre, some post)

/-- Parse the mantissa of a float literal: digits, a dot with digits on at least
one side, each digit group honouring the underscore rules. Returns the combined
numerator and the number of fractional digits. -/
def mantParse : List Char × Option (List Char) → Option (Nat × Nat)
  | (ip, none) =>
      if validDigitsU ip then some (natOfDigits (dropU ip), 0) else none
  | (ip, some fp) =>
      if (ip = [] || validDigitsU ip) && (fp = [] || validDigitsU fp) &&
          !(ip = [] && fp = []) then
        some (natOfDigits (dropU ip) * 10 ^ (dropU fp).length + natOfDigits (dropU fp),
              (dropU fp).length)
      else none

/-- Parse the exponent part of a float literal: optional sign and a digit group. -/
def expParse : Option (List Char) → Option Int
  | none => some 0
  | some es =>
      match es with
      | '+' :: r => if validDigitsU r then some (Int.ofNat (natOfDigits (dropU r))) else none
      | '-' :: r => if validDigitsU r then some (-(Int.ofNat (natOfDigits (dropU r)))) else none
      | r => if validDigitsU r then some (Int.ofNat (natOfDigits (dropU r))) else none

/-- Model of the Python float() builtin on stripped text: an optional sign and
either inf, infinity, nan (case-insensitive) or a decimal mantissa with an
optional exponent. Failure is modelled as none. -/
def pyFloatParse (s : String) : Option PyFloat :=
  let t := (pyLower s).toList
  let signBody : Bool × List Char :=
    match t with
    | '+' :: r => (false, r)
    | '-' :: r => (true, r)
    | r => (false, r)
  let neg := signBody.1
  let body := signBody.2
  if body = "inf".toList || body = "infinity".toList then some (PyFloat.infinite neg)
  else if body = "nan".toList then some PyFloat.nan
  else
    let (mantPart, expPart) := splitAtFirst 'e' body
    match mantParse (splitAtFirst '.' mantPart), expParse expPart with
    | some (num, fLen), some e =>
        let sn : Int := if neg then -(Int.ofNat num) else Int.ofNat num
        if 0 ≤ e then some (PyFloat.finite (sn * 10 ^ e.toNat) (10 ^ fLen))
        else some (PyFloat.finite sn (10 ^ fLen * 10 ^ (-e).toNat))
    | _, _ => none

/-- The universe of Python values the engine manipulates: the values it builds
from entered text plus anything a test function may return. -/
inductive PyValue
  | vNone
  | vBool (b : Bool)
  | vInt (n : Int)
  | vFloat (f : PyFloat)
  | vStr (s : String)
deriving DecidableEq

/-- Python truthiness of a modelled value, as used by the success test. -/
def truthy : PyValue → Bool
  | .vNone => false
  | .vBool b => b
  | .vInt n => n != 0
  | .vFloat (.finite num _) => num != 0
  | .vFloat (.infinite _) => true
  | .vFloat .nan => true
  | .vStr s => s != ""

/-- Lookup in an association list modelling a Python dict: the value at the
first matching key, none when absent (dict.get with no default). -/
def alistFind {β : Type} : List (String × β) → String → Option β
  | [], _ => none
  | (k0, v0) :: rest, k => if k0 = k then some v0 else alistFind rest k

/-- Lookup with a default value (dict.get with a default). -/
def alistFindD {β : Type} (m : List (String × β)) (k : String) (d : β) : β :=
  (alistFind m k).getD d

/-- Dict-style insertion: update an existing key in place, append a fresh key. -/
def alistInsert {β : Type} : List (String × β) → String → β → List (String × β)
  | [], k, v => [(k, v)]
  | (k0, v0) :: rest, k, v =>
      if k0 = k then (k, v) :: rest else (k0, v0) :: alistInsert rest k v

/-- The inspected class of a declared parameter type, as tested by run_sequence:
bool, int, float, str, or any other declared type (the code treats str and every
other non-bool, non-numeric declared type alike, passing the text through). -/
inductive PyAnn
  | aBool
  | aInt
  | aFloat
  | aStr
  | aOther
deriving DecidableEq

/-- One declared parameter of a test function, as exposed by inspect.signature:
its name, its optional declared type (none models Parameter.empty), and whether
the parameter carries a default value. -/
structure ParamSpec where
  name : String
  ann : Option PyAnn
  hasDefault : Bool
deriving DecidableEq

/-- Outcome of invoking a test function: it raises with a message or returns a value. -/
inductive CallResult
  | raises (msg : String)
  | returns (v : PyValue)

/-- A callable discovered in a test module: its declared parameter list (in
signature order) and its behaviour on a keyword-argument assignment. -/
structure FuncDef where
  params : List ParamSpec
  behavior : List (String × PyValue) → CallResult

/-- The registry self.test_functions: module name to function name to callable. -/
abbrev Registry := List (String × List (String × FuncDef))

/-- Model of StepObject in src/main.py: a sequence step holding its own
parameter text. The uuid.uuid4 identifier is modelled as a natural number
minted by a fresh-identifier counter. -/
structure StepObject where
  id : Nat
  type_ : String
  module : Option String
  function : Option String
  control : Option String
  params : List (String × String)
deriving DecidableEq

/-- Model of the StepObject constructor: mint a fresh identifier from the
counter, store the descriptors, and start with an empty parameter dict. -/
def mkStepObject (nextId : Nat) (type_ : String)
    (module function control : Option String) : StepObject × Nat :=
  (⟨nextId, type_, module, function, control, []⟩, nextId + 1)

/-- Update one parameter text of a step, as the textChanged callback does. -/
def setStepParam (step : StepObject) (p v : String) : StepObject :=
  { step with params := alistInsert step.params p v }

/-- Model of MainWindow.on_param_changed over a collection of live steps: the
step whose identity matches the edited item has one parameter text updated;
every other step is untouched. -/
def on_param_changed (steps : List StepObject) (targetId : Nat)
    (p v : String) : List StepObject :=
  steps.map (fun s => if s.id = targetId then setStepParam s p v else s)

/-- Resolution of a (module, function) pair against the registry, as written in
run_sequence: self.test_functions.get(module, empty dict).get(function). -/
def regResolve (reg : Registry) (m fn : Option String) : Option FuncDef :=
  match m, fn with
  | some ms, some fs => alistFind (alistFindD reg ms []) fs
  | _, _ => none

/-- Whether the registry holds an entry for a module name. -/
def regHasModule (reg : Registry) (m : String) : Bool :=
  (alistFind reg m).isSome

/-- Store a callable in the registry, creating the module dict on first use, as
load_test_functions does. -/
def regInsert (reg : Registry) (m fn : String) (f : FuncDef) : Registry :=
  alistInsert reg m (alistInsert (alistFindD reg m []) fn f)

/-- One attribute of a loaded module namespace: a callable or a plain value. -/
inductive NsVal
  | func (f : FuncDef)
  | plain

/-- The callable held by a namespace attribute, if it is one. -/
def nsCallable : NsVal → Option FuncDef
  | .func f => some f
  | .plain => none

/-- A source unit presented to load_test_functions: its filename, and the
outcome of executing it as a module: a load error or its namespace, a list of
named attributes in dir() order. -/
structure SourceUnit where
  filename : String
  load : Except String (List (String × NsVal))

/-- True when the first string starts with the second. -/
def strStartsWith (s pre : String) : Bool :=
  decide (s.toList.take pre.toList.length = pre.toList)

/-- True when the first string ends with the second. -/
def strEndsWith (s suf : String) : Bool :=
  decide (s.toList.drop (s.toList.length - suf.toList.length) = suf.toList)

/-- The filename filter in load_test_functions: a .py file whose name starts
with test underscore, excluding the reserved name test_functions.py. -/
def isTestSourceFile (file : String) : Bool :=
  strEndsWith file ".py" && strStartsWith file "test_" &&
    decide (file ≠ "test_functions.py")

/-- A public attribute name: one that does not start with an underscore. -/
def isPublicName (n : String) : Bool :=
  !(strStartsWith n "_")

/-- The module name of a source unit: its filename with .py removed. -/
def moduleNameOf (u : SourceUnit) : String :=
  u.filename.dropRight 3

/-- Register every public callable of a loaded namespace under a module name,
in dir() order, as the discovery loop of load_test_functions does. -/
def addUnitFunctions (mu : String) (r : Registry) : List (String × NsVal) → Registry
  | [] => r
  | e :: rest =>
      match nsCallable e.2 with
      | some f =>
          addUnitFunctions mu (if isPublicName e.1 then regInsert r mu e.1 f else r) rest
      | none => addUnitFunctions mu r rest

/-- Process one source unit: skip irrelevant filenames; on a load error record
one diagnostic (module name and error) and add nothing; on success register the
public callables of the namespace. -/
def loadStep (acc : Registry × List (String × String)) (u : SourceUnit) :
    Registry × List (String × String) :=
  if isTestSourceFile u.filename then
    match u.load with
    | .ok ns => (addUnitFunctions (moduleNameOf u) acc.1 ns, acc.2)
    | .error e => (acc.1, acc.2 ++ [(moduleNameOf u, e)])
  else acc

/-- Fold loadStep over a list of source units from a given accumulator. -/
def loadUnits (acc : Registry × List (String × String)) :
    List SourceUnit → Registry × List (String × String)
  | [] => acc
  | u :: rest => loadUnits (loadStep acc u) rest

/-- Model of MainWindow.load_test_functions: build the registry and the load
diagnostics from scratch over the presented source units. -/
def load_test_functions (units : List SourceUnit) : Registry × List (String × String) :=
  loadUnits ([], []) units

/-- Model of invoking load_test_functions from an existing state: the method
begins by assigning a fresh empty dict to self.test_functions, so the previous
registry is discarded entirely. -/
def load_into (_old : Registry) (units : List SourceUnit) :
    Registry × List (String × String) :=
  load_test_functions units

/-- The diagnostics produced by processing further units after an earlier
registry state has been reached. -/
def diagsFrom (r : Registry) (units : List SourceUnit) : List (String × String) :=
  (loadUnits (r, []) units).2

/-- Whether a namespace holds a public callable under the given name. -/
def nsProvides (fn : String) : List (String × NsVal) → Bool
  | [] => false
  | e :: rest =>
      (decide (e.1 = fn) && (nsCallable e.2).isSome && isPublicName e.1) ||
        nsProvides fn rest

/-- Whether a namespace holds at least one public callable. -/
def nsHasPublicCallable : List (String × NsVal) → Bool
  | [] => false
  | e :: rest => ((nsCallable e.2).isSome && isPublicName e.1) || nsHasPublicCallable rest

/-- Whether a source unit contributes the named function to the named module:
its filename passes the filter, it loads, and its namespace holds the function
as a public callable. -/
def unitProvides (u : SourceUnit) (m fn : String) : Bool :=
  isTestSourceFile u.filename && decide (moduleNameOf u = m) &&
    (match u.load with
     | .ok ns => nsProvides fn ns
     | .error _ => false)

/-- Whether a source unit contributes the named module to the registry: its
filename passes the filter, it loads, and it holds at least one public callable. -/
def unitContributesModule (u : SourceUnit) (m : String) : Bool :=
  isTestSourceFile u.filename && decide (moduleNameOf u = m) &&
    (match u.load with
     | .ok ns => nsHasPublicCallable ns
     | .error _ => false)

/-- The outcome kinds a step can record in the execution trace. -/
inductive ResultKind
  | success
  | failure
  | notFound
  | argumentError
  | controlMarker
deriving DecidableEq

/-- One entry of the execution trace: an outcome kind plus the rendered message
line of run_sequence. -/
structure StepResult where
  kind : ResultKind
  message : String
deriving DecidableEq

/-- The truthy text set test of run_sequence for a bool parameter: the
lowercased text is one of true, 1, yes, on. -/
def pyTruthyText (s : String) : Bool :=
  decide (pyLower s = "true") || decide (pyLower s = "1") ||
    decide (pyLower s = "yes") || decide (pyLower s = "on")

/-- The per-type conversion of run_sequence applied to the stripped text of a
parameter whose declared type is present: bool never fails; int and float fail
exactly when the builtin conversion raises; every other declared type passes
the text through. -/
def convertValue (a : PyAnn) (value_str : String) : Except String PyValue :=
  match a with
  | .aBool => .ok (.vBool (pyTruthyText value_str))
  | .aInt =>
      match pyIntParse value_str with
      | some n => .ok (.vInt n)
      | none =>
          .error ("invalid literal for int() with base 10: " ++
            asciiQuote ++ value_str ++ asciiQuote)
  | .aFloat =>
      match pyFloatParse value_str with
      | some f => .ok (.vFloat f)
      | none =>
          .error ("could not convert string to float: " ++
            asciiQuote ++ value_str ++ asciiQuote)
  | .aStr => .ok (.vStr value_str)
  | .aOther => .ok (.vStr value_str)

/-- Reading one parameter in run_sequence: fetch the stored text with empty
default, strip it, then convert it when a declared type is present, else pass
the stripped text through. -/
def paramValue (stepParams : List (String × String)) (p : ParamSpec) :
    Except String PyValue :=
  let value_str := pyStrip (alistFindD stepParams p.name "")
  match p.ann with
  | some a => convertValue a value_str
  | none => .ok (.vStr value_str)

/-- The trace entry rendered when a parameter conversion fails, naming the
parameter and the conversion error. -/
def argErrEntry (pname e : String) : StepResult :=
  ⟨.argumentError,
    "参数 " ++ asciiQuote ++ pname ++ asciiQuote ++ " 类型转换失败: " ++ e⟩

/-- The argument-error entry a parameter contributes, when its conversion fails. -/
def argErrOf (stepParams : List (String × String)) (p : ParamSpec) : Option StepResult :=
  match paramValue stepParams p with
  | .error e => some (argErrEntry p.name e)
  | .ok _ => none

/-- The keyword binding a parameter contributes, when its conversion succeeds. -/
def argBindOf (stepParams : List (String × String)) (p : ParamSpec) :
    Option (String × PyValue) :=
  match paramValue stepParams p with
  | .ok v => some (p.name, v)
  | .error _ => none

/-- The parameter loop of run_sequence over the declared parameters in
signature order: a failing conversion appends its error entry and skips only
that binding (the loop continues with the next parameter); a succeeding
conversion adds its keyword binding. -/
def convert_params (stepParams : List (String × String)) :
    List ParamSpec → List StepResult × List (String × PyValue)
  | [] => ([], [])
  | p :: rest =>
      match paramValue stepParams p, convert_params stepParams rest with
      | .ok v, r => (r.1, (p.name, v) :: r.2)
      | .error e, r => (argErrEntry p.name e :: r.1, r.2)

/-- The first declared parameter without a default that received no keyword
binding; Python call binding rejects the call over it. -/
def firstMissing (specs : List ParamSpec) (args : List (String × PyValue)) :
    Option String :=
  (specs.find? (fun p => !p.hasDefault && (alistFind args p.name).isNone)).map
    (fun p => p.name)

/-- Model of the guarded invocation in run_sequence: calling the function with
the assembled keyword arguments. A call with a missing required argument raises
inside the try block, as does any raise from the body; both render as the error
line. A normal return renders as success when the value is None or truthy, and
as failure otherwise. -/
def callFunc (f : FuncDef) (args : List (String × PyValue)) : StepResult :=
  match firstMissing f.params args with
  | some pname =>
      ⟨.failure, "错误: missing required argument: " ++ asciiQuote ++ pname ++ asciiQuote⟩
  | none =>
      match f.behavior args with
      | .raises e => ⟨.failure, "错误: " ++ e⟩
      | .returns v =>
          if decide (v = .vNone) || truthy v then ⟨.success, "成功"⟩
          else ⟨.failure, "失败"⟩

/-- The trace entries one step contributes in run_sequence: a control step
records its marker; an unresolved function records the not-found line; a
resolved function records one argument-error entry per failing parameter
followed by the outcome of the invocation, which always takes place. -/
def stepResults (reg : Registry) (step : StepObject) : List StepResult :=
  if step.type_ = "function" then
    match regResolve reg step.module step.function with
    | none => [⟨.notFound, "函数未找到"⟩]
    | some f =>
        let c := convert_params step.params f.params
        c.1 ++ [callFunc f c.2]
  else
    [⟨.controlMarker, step.control.getD "None"⟩]

/-- Model of MainWindow.run_sequence: one pass over the sequence, accumulating
each step's trace entries in order; no step aborts the loop. -/
def run_sequence (reg : Registry) : List StepObject → List StepResult
  | [] => []
  | s :: rest => stepResults reg s ++ run_sequence reg rest

/-- Model of the delete handling in DroppableListWidget.keyPressEvent, built on
QListWidget.takeItem: a valid row removes and returns the step at that row; an
invalid row returns nothing and leaves the sequence unchanged (Qt surfaces no
error for an invalid row). -/
def takeItem (xs : List StepObject) (row : Int) : Option StepObject × List StepObject :=
  if 0 ≤ row ∧ row < (xs.length : Int) then
    (xs.get? row.toNat, xs.eraseIdx row.toNat)
  else (none, xs)

/-- The add_positive test function of the spec scenarios: two int parameters,
returning whether their sum is positive; on any other argument assignment the
body raises. -/
def addPositive : FuncDef where
  params := [⟨"a", some .aInt, false⟩, ⟨"b", some .aInt, false⟩]
  behavior := fun args =>
    match alistFind args "a", alistFind args "b" with
    | some (.vInt x), some (.vInt y) => .returns (.vBool (decide (0 < x + y)))
    | _, _ => .raises "unsupported argument values"

/-- A source unit holding add_positive under the module name test_math. -/
def testMathUnit : SourceUnit where
  filename := "test_math.py"
  load := .ok [("add_positive", .func addPositive)]

/-- A source unit whose load raises. -/
def badUnit : SourceUnit where
  filename := "test_bad.py"
  load := .error "boom"

/-- The registry discovered from the test_math source unit alone. -/
def demoRegistry : Registry :=
  (load_test_functions [testMathUnit]).1

/-- A function step for add_positive whose first parameter text does not parse
as an int. -/
def badParamStep : StepObject :=
  ⟨100, "function", some "test_math", some "add_positive", none,
    [("a", "x"), ("b", "3")]⟩

/-- A function step for add_positive with arguments 2 and 3. -/
def goodParamStep : StepObject :=
  ⟨101, "function", some "test_math", some "add_positive", none,
    [("a", "2"), ("b", "3")]⟩

/-- A control step holding the for token. -/
def forStep : StepObject :=
  ⟨102, "control", none, none, some "for", []⟩

/-- A function step naming a module absent from the registry. -/
def unresolvedStep : StepObject :=
  ⟨103, "function", some "no_such_module", some "f", none, []⟩

/-- A parameterless function returning None. -/
def retNone : FuncDef where
  params := []
  behavior := fun _ => .returns .vNone

/-- A parameterless function returning the falsy value 0. -/
def retZero : FuncDef where
  params := []
  behavior := fun _ => .returns (.vInt 0)

/-- A parameterless function returning the truthy value 5. -/
def retFive : FuncDef where
  params := []
  behavior := fun _ => .returns (.vInt 5)

/-- A parameterless function whose body raises. -/
def raiser : FuncDef where
  params := []
  behavior := fun _ => .raises "boom"

/-- A first step minted from the fresh-identifier counter. -/
def step1demo : StepObject :=
  (mkStepObject 0 "function" (some "test_math") (some "add_positive") none).1

/-- A second step minted from the fresh-identifier counter, referencing the
same function as the first. -/
def step2demo : StepObject :=
  (mkStepObject (mkStepObject 0 "function" (some "test_math") (some "add_positive") none).2
    "function" (some "test_math") (some "add_positive") none).1

example : pyIntParse "3" = some 3 := by decide
example : pyIntParse "x" = none := by decide
example : pyIntParse "-1_0" = some (-10) := by decide
example : pyIntParse "1__0" = none := by decide
example : pyFloatParse "2.5" = some (PyFloat.finite 25 10) := by decide
example : pyFloatParse "" = none := by decide
example : pyFloatParse "Inf" = some (PyFloat.infinite false) := by decide
example : pyStrip "  hi  " = "hi" := by decide
example : pyTruthyText "True" = true := by decide
example : pyTruthyText "no" = false := by decide
example : demoRegistry.map (fun e => (e.1, e.2.map (fun f => f.1))) =
    [("test_math", ["add_positive"])] := by decide
example : (stepResults demoRegistry badParamStep).map StepResult.kind =
    [.argumentError, .failure] := by decide
example : (stepResults demoRegistry goodParamStep).map StepResult.kind =
    [.success] := by decide
example : run_sequence demoRegistry [forStep, unresolvedStep] =
    [⟨.controlMarker, "for"⟩, ⟨.notFound, "函数未找到"⟩] := by decide
example : takeItem [forStep] 5 = (none, [forStep]) := by decide

theorem strMkToList (s : String) : String.mk s.toList = s := rfl

/-- A string with no leading and no trailing whitespace is unchanged by strip. -/
theorem pyStrip_eq_self (s : String) (h : noEdgeSpace s = true) : pyStrip s = s := by
  have key : ((s.toList.dropWhile pyIsSpace).reverse.dropWhile pyIsSpace).reverse
      = s.toList := by
    unfold noEdgeSpace at h
    rw [Bool.and_eq_true] at h
    obtain ⟨h1, h2⟩ := h
    cases hl : s.toList with
    | nil => simp
    | cons c rest =>
      rw [hl] at h1 h2
      simp only [List.headD_cons, Bool.not_eq_eq_eq_not, Bool.not_true] at h1
      have hd1 : List.dropWhile pyIsSpace (c :: rest) = c :: rest := by
        rw [List.dropWhile_cons, if_neg (by simp [h1])]
      rw [hd1]
      cases hr : (c :: rest).reverse with
      | nil =>
        rw [List.reverse_eq_nil_iff] at hr
        simp at hr
      | cons d ds =>
        rw [hr] at h2
        simp only [List.headD_cons, Bool.not_eq_eq_eq_not, Bool.not_true] at h2
        have hd2 : List.dropWhile pyIsSpace (d :: ds) = d :: ds := by
          rw [List.dropWhile_cons, if_neg (by simp [h2])]
        rw [hd2]
        have h3 := congrArg List.reverse hr
        rw [List.reverse_reverse] at h3
        exact h3.symm
  calc pyStrip s = String.mk s.toList := by rw [pyStrip, key]
    _ = s := strMkToList s

theorem alistFind_alistInsert {β : Type} (m : List (String × β)) (k k2 : String) (v : β) :
    alistFind (alistInsert m k v) k2 = if k2 = k then some v else alistFind m k2 := by
  induction m with
  | nil =>
    by_cases h : k2 = k
    · simp [alistInsert, alistFind, h]
    · simp [alistInsert, alistFind, h, Ne.symm h]
  | cons hd tl ih =>
    obtain ⟨k0, v0⟩ := hd
    by_cases h0 : k0 = k
    · subst h0
      by_cases h2 : k2 = k0
      · subst h2
        simp [alistInsert, alistFind]
      · simp [alistInsert, alistFind, h2, Ne.symm h2]
    · by_cases h2 : k2 = k0
      · subst h2
        simp [alistInsert, alistFind, h0]
      · simp [alistInsert, alistFind, h0, h2, Ne.symm h2, ih]

theorem regResolve_some (reg : Registry) (ms fs : String) :
    regResolve reg (some ms) (some fs) = alistFind (alistFindD reg ms []) fs := rfl

theorem addUnitFunctions_cons (mu : String) (r : Registry) (e : String × NsVal)
    (rest : List (String × NsVal)) :
    addUnitFunctions mu r (e :: rest) =
      match nsCallable e.2 with
      | some f =>
          addUnitFunctions mu (if isPublicName e.1 then regInsert r mu e.1 f else r) rest
      | none => addUnitFunctions mu r rest := rfl

theorem nsProvides_cons (fn : String) (e : String × NsVal) (rest : List (String × NsVal)) :
    nsProvides fn (e :: rest) =
      ((decide (e.1 = fn) && (nsCallable e.2).isSome && isPublicName e.1) ||
        nsProvides fn rest) := rfl

theorem nsHasPublicCallable_cons (e : String × NsVal) (rest : List (String × NsVal)) :
    nsHasPublicCallable (e :: rest) =
      (((nsCallable e.2).isSome && isPublicName e.1) || nsHasPublicCallable rest) := rfl

theorem regResolve_regInsert (r : Registry) (m fn m2 fn2 : String) (f : FuncDef) :
    regResolve (regInsert r m fn f) (some m2) (some fn2) =
      if m2 = m ∧ fn2 = fn then some f else regResolve r (some m2) (some fn2) := by
  rw [regResolve_some, regResolve_some]
  unfold regInsert alistFindD
  rw [alistFind_alistInsert]
  by_cases hm : m2 = m
  · subst hm
    by_cases hf : fn2 = fn
    · simp [alistFind_alistInsert, hf]
    · simp [alistFind_alistInsert, hf]
  · simp [hm]

theorem regHasModule_regInsert (r : Registry) (m fn : String) (f : FuncDef) (m2 : String) :
    regHasModule (regInsert r m fn f) m2 = (decide (m2 = m) || regHasModule r m2) := by
  unfold regHasModule regInsert
  rw [alistFind_alistInsert]
  by_cases hm : m2 = m <;> simp [hm]

theorem regResolve_of_not_hasModule (r : Registry) (m fn : String)
    (h : regHasModule r m = false) : regResolve r (some m) (some fn) = none := by
  unfold regHasModule at h
  rw [regResolve_some]
  unfold alistFindD
  cases hf : alistFind r m with
  | none => rfl
  | some l => rw [hf] at h; simp at h

theorem addUnit_resolve (mu : String) (ns : List (String × NsVal)) (r : Registry)
    (m fn : String) (h : mu ≠ m ∨ nsProvides fn ns = false) :
    regResolve (addUnitFunctions mu r ns) (some m) (some fn) =
      regResolve r (some m) (some fn) := by
  induction ns generalizing r with
  | nil => rfl
  | cons e rest ih =>
    have hrest : mu ≠ m ∨ nsProvides fn rest = false := by
      rcases h with h | h
      · exact Or.inl h
      · refine Or.inr ?_
        rw [nsProvides_cons] at h
        exact (Bool.or_eq_false_iff.mp h).2
    cases hc : nsCallable e.2 with
    | none =>
      rw [show addUnitFunctions mu r (e :: rest) = addUnitFunctions mu r rest by
        simp [addUnitFunctions_cons, hc]]
      exact ih r hrest
    | some f =>
      rw [show addUnitFunctions mu r (e :: rest) =
          addUnitFunctions mu (if isPublicName e.1 then regInsert r mu e.1 f else r) rest by
        simp [addUnitFunctions_cons, hc]]
      rw [ih _ hrest]
      by_cases hp : isPublicName e.1 = true
      · rw [if_pos hp, regResolve_regInsert, if_neg]
        intro hh
        rcases h with h | h
        · exact h hh.1.symm
        · rw [nsProvides_cons, hc, hh.2] at h
          simp [hp] at h
      · rw [if_neg hp]

theorem addUnit_hasModule (mu : String) (ns : List (String × NsVal)) (r : Registry)
    (m : String) (h : regHasModule (addUnitFunctions mu r ns) m = true) :
    regHasModule r m = true ∨ (mu = m ∧ nsHasPublicCallable ns = true) := by
  induction ns generalizing r with
  | nil => exact Or.inl h
  | cons e rest ih =>
    cases hc : nsCallable e.2 with
    | none =>
      rw [show addUnitFunctions mu r (e :: rest) = addUnitFunctions mu r rest by
        simp [addUnitFunctions_cons, hc]] at h
      rcases ih r h with h2 | h2
      · exact Or.inl h2
      · refine Or.inr ⟨h2.1, ?_⟩
        rw [nsHasPublicCallable_cons, h2.2]
        simp
    | some f =>
      rw [show addUnitFunctions mu r (e :: rest) =
          addUnitFunctions mu (if isPublicName e.1 then regInsert r mu e.1 f else r) rest by
        simp [addUnitFunctions_cons, hc]] at h
      rcases ih _ h with h2 | h2
      · by_cases hp : isPublicName e.1 = true
        · rw [if_pos hp, regHasModule_regInsert] at h2
          rcases Bool.or_eq_true_iff.mp h2 with h3 | h3
          · refine Or.inr ⟨(of_decide_eq_true h3).symm, ?_⟩
            rw [nsHasPublicCallable_cons, hc]
            simp [hp]
          · exact Or.inl h3
        · rw [if_neg hp] at h2
          exact Or.inl h2
      · refine Or.inr ⟨h2.1, ?_⟩
        rw [nsHasPublicCallable_cons, h2.2]
        simp

theorem loadUnits_cons (acc : Registry × List (String × String)) (u : SourceUnit)
    (rest : List SourceUnit) :
    loadUnits acc (u :: rest) = loadUnits (loadStep acc u) rest := rfl

theorem loadUnits_append (acc : Registry × List (String × String))
    (xs ys : List SourceUnit) :
    loadUnits acc (xs ++ ys) = loadUnits (loadUnits acc xs) ys := by
  induction xs generalizing acc with
  | nil => rfl
  | cons u rest ih =>
    rw [List.cons_append, loadUnits_cons, loadUnits_cons, ih]

theorem loadStep_split (r : Registry) (d : List (String × String)) (u : SourceUnit) :
    loadStep (r, d) u = ((loadStep (r, []) u).1, d ++ (loadStep (r, []) u).2) := by
  unfold loadStep
  by_cases h : isTestSourceFile u.filename = true
  · cases hl : u.load with
    | ok ns => simp [h, hl]
    | error e => simp [h, hl]
  · simp [h]

theorem loadUnits_split (units : List SourceUnit) (r : Registry)
    (d : List (String × String)) :
    loadUnits (r, d) units =
      ((loadUnits (r, []) units).1, d ++ (loadUnits (r, []) units).2) := by
  induction units generalizing r d with
  | nil => simp [loadUnits]
  | cons u rest ih =>
    rw [loadUnits_cons, loadUnits_cons, loadStep_split r d u]
    rcases hP : loadStep (r, []) u with ⟨R1, D1⟩
    rw [ih R1 (d ++ D1), ih R1 D1]
    simp [List.append_assoc]

theorem loadUnits_resolve (units : List SourceUnit)
    (acc : Registry × List (String × String)) (m fn : String)
    (h : ∀ u ∈ units, unitProvides u m fn = false) :
    regResolve (loadUnits acc units).1 (some m) (some fn) =
      regResolve acc.1 (some m) (some fn) := by
  induction units generalizing acc with
  | nil => rfl
  | cons u rest ih =>
    rw [loadUnits_cons, ih (loadStep acc u) (fun v hv => h v (List.mem_cons_of_mem u hv))]
    have hu := h u (List.mem_cons_self u rest)
    unfold loadStep
    by_cases hrel : isTestSourceFile u.filename = true
    · cases hl : u.load with
      | error e => simp [hrel, hl]
      | ok ns =>
        simp only [hrel, if_true, hl]
        apply addUnit_resolve
        unfold unitProvides at hu
        rw [hl] at hu
        by_cases hm : moduleNameOf u = m
        · refine Or.inr ?_
          simp [hrel, hm] at hu
          exact hu
        · exact Or.inl hm
    · simp [hrel]

theorem loadUnits_hasModule (units : List SourceUnit)
    (acc : Registry × List (String × String)) (m : String)
    (h : regHasModule (loadUnits acc units).1 m = true) :
    regHasModule acc.1 m = true ∨ ∃ u ∈ units, unitContributesModule u m = true := by
  induction units generalizing acc with
  | nil => exact Or.inl h
  | cons u rest ih =>
    rw [loadUnits_cons] at h
    rcases ih (loadStep acc u) h with h2 | h2
    · unfold loadStep at h2
      by_cases hrel : isTestSourceFile u.filename = true
      · cases hl : u.load with
        | error e =>
          simp [hrel, hl] at h2
          exact Or.inl h2
        | ok ns =>
          simp only [hrel, if_true, hl] at h2
          rcases addUnit_hasModule (moduleNameOf u) ns acc.1 m h2 with h3 | h3
          · exact Or.inl h3
          · refine Or.inr ⟨u, List.mem_cons_self u rest, ?_⟩
            unfold unitContributesModule
            rw [hl]
            simp [hrel, h3.1, h3.2]
      · simp [hrel] at h2
        exact Or.inl h2
    · rcases h2 with ⟨v, hv, hvc⟩
      exact Or.inr ⟨v, List.mem_cons_of_mem u hv, hvc⟩

theorem convert_params_cons (sp : List (String × String)) (p : ParamSpec)
    (rest : List ParamSpec) :
    convert_params sp (p :: rest) =
      (match paramValue sp p, convert_params sp rest with
       | .ok v, r => (r.1, (p.name, v) :: r.2)
       | .error e, r => (argErrEntry p.name e :: r.1, r.2)) := rfl

theorem convert_params_eq (sp : List (String × String)) (specs : List ParamSpec) :
    convert_params sp specs =
      (specs.filterMap (argErrOf sp), specs.filterMap (argBindOf sp)) := by
  induction specs with
  | nil => rfl
  | cons p rest ih =>
    rw [convert_params_cons, ih]
    cases hpv : paramValue sp p with
    | ok v => simp [List.filterMap_cons, argErrOf, argBindOf, hpv]
    | error e => simp [List.filterMap_cons, argErrOf, argBindOf, hpv]

theorem stepResults_function (reg : Registry) (step : StepObject) (f : FuncDef)
    (h1 : step.type_ = "function")
    (h2 : regResolve reg step.module step.function = some f) :
    stepResults reg step =
      (convert_params step.params f.params).1 ++
        [callFunc f (convert_params step.params f.params).2] := by
  unfold stepResults
  rw [if_pos h1, h2]

theorem stepResults_length_pos (reg : Registry) (step : StepObject) :
    1 ≤ (stepResults reg step).length := by
  unfold stepResults
  by_cases h : step.type_ = "function"
  · rw [if_pos h]
    cases regResolve reg step.module step.function with
    | none => simp
    | some f => simp
  · rw [if_neg h]
    simp

theorem run_sequence_cons (reg : Registry) (s : StepObject) (rest : List StepObject) :
    run_sequence reg (s :: rest) = stepResults reg s ++ run_sequence reg rest := rfl

theorem run_sequence_append (reg : Registry) (xs ys : List StepObject) :
    run_sequence reg (xs ++ ys) = run_sequence reg xs ++ run_sequence reg ys := by
  induction xs with
  | nil => rfl
  | cons s rest ih =>
    rw [List.cons_append, run_sequence_cons, run_sequence_cons, ih, List.append_assoc]

theorem run_sequence_length (reg : Registry) (seq : List StepObject) :
    seq.length ≤ (run_sequence reg seq).length := by
  induction seq with
  | nil => simp [run_sequence]
  | cons s rest ih =>
    rw [run_sequence_cons]
    simp only [List.length_append, List.length_cons]
    have := stepResults_length_pos reg s
    omega

/-- C3: for a resolved function step whose arguments all convert, the trace
entry is the invocation outcome, classified exactly as the code does: a None
return is success, a falsy non-None return is failure, a truthy return is
success, and a raise yields the failure entry carrying the exception text. -/
theorem C3_outcome_classification :
    (∀ (f : FuncDef) (args : List (String × PyValue)),
       firstMissing f.params args = none →
       f.behavior args = .returns .vNone →
       callFunc f args = ⟨.success, "成功"⟩)
    ∧ (∀ (f : FuncDef) (args : List (String × PyValue)) (v : PyValue),
         firstMissing f.params args = none →
         f.behavior args = .returns v →
         v ≠ .vNone → truthy v = false →
         callFunc f args = ⟨.failure, "失败"⟩)
    ∧ (∀ (f : FuncDef) (args : List (String × PyValue)) (v : PyValue),
         firstMissing f.params args = none →
         f.behavior args = .returns v →
         truthy v = true →
         callFunc f args = ⟨.success, "成功"⟩)
    ∧ (∀ (f : FuncDef) (args : List (String × PyValue)) (e : String),
         firstMissing f.params args = none →
         f.behavior args = .raises e →
         callFunc f args = ⟨.failure, "错误: " ++ e⟩)
    ∧ (∀ (reg : Registry) (step : StepObject) (f : FuncDef),
         step.type_ = "function" →
         regResolve reg step.module step.function = some f →
         (convert_params step.params f.params).1 = [] →
         stepResults reg step = [callFunc f (convert_params step.params f.params).2]) := by
  refine ⟨?_, ?_, ?_, ?_, ?_⟩
  · intro f args hm hb
    unfold callFunc
    rw [hm, hb]
    simp
  · intro f args v hm hb hv htr
    unfold callFunc
    rw [hm, hb]
    simp [hv, htr]
  · intro f args v hm hb htr
    unfold callFunc
    rw [hm, hb]
    simp [htr]
  · intro f args e hm hb
    unfold callFunc
    rw [hm, hb]
  · intro reg step f h1 h2 h3
    rw [stepResults_function reg step f h1 h2, h3]
    simp

/-- Witness for C3 at concrete functions and a concrete resolved step. -/
theorem C3_witness :
    callFunc retNone [] = ⟨.success, "成功"⟩
    ∧ callFunc retZero [] = ⟨.failure, "失败"⟩
    ∧ callFunc retFive [] = ⟨.success, "成功"⟩
    ∧ callFunc raiser [] = ⟨.failure, "错误: boom"⟩
    ∧ stepResults demoRegistry goodParamStep =
        [callFunc addPositive (convert_params goodParamStep.params addPositive.params).2] := by
  refine ⟨C3_outcome_classification.1 retNone [] rfl rfl,
    C3_outcome_classification.2.1 retZero [] (PyValue.vInt 0) rfl rfl (by decide) rfl,
    C3_outcome_classification.2.2.1 retFive [] (PyValue.vInt 5) rfl rfl rfl,
    C3_outcome_classification.2.2.2.1 raiser [] "boom" rfl rfl,
    C3_outcome_classification.2.2.2.2 demoRegistry goodParamStep addPositive rfl rfl (by decide)⟩

/-- C5: conversion of a bool parameter never fails: the engine strips the
stored text and yields true exactly when the lowercased text is one of the
fixed truthy set true, 1, yes, on. -/
theorem C5_bool_conversion :
    (∀ (sp : List (String × String)) (p : ParamSpec),
       p.ann = some PyAnn.aBool →
       paramValue sp p = .ok (.vBool (pyTruthyText (pyStrip (alistFindD sp p.name "")))))
    ∧ (∀ s : String, pyTruthyText s = true ↔
         (pyLower s = "true" ∨ pyLower s = "1" ∨ pyLower s = "yes" ∨ pyLower s = "on")) := by
  constructor
  · intro sp p h
    unfold paramValue
    rw [h]
    rfl
  · intro s
    unfold pyTruthyText
    simp [Bool.or_eq_true, decide_eq_true_eq, or_assoc]

/-- Witness for C5 at a concrete bool parameter with padded mixed-case text. -/
theorem C5_witness :
    paramValue [("flag", " True ")] ⟨"flag", some PyAnn.aBool, false⟩ =
      .ok (.vBool true)
    ∧ (pyTruthyText "yes" = true ↔
        (pyLower "yes" = "true" ∨ pyLower "yes" = "1" ∨
          pyLower "yes" = "yes" ∨ pyLower "yes" = "on")) := by
  constructor
  · have h := C5_bool_conversion.1 [("flag", " True ")] ⟨"flag", some PyAnn.aBool, false⟩ rfl
    rw [h]
    rfl
  · exact C5_bool_conversion.2 "yes"

/-- C4 counterexample: the engine strips the stored text before passing it, so
an untyped parameter whose stored text carries edge whitespace is not passed
through unmodified. -/
theorem C4_counterexample :
    (convert_params [("a", "  hi  ")] [⟨"a", none, false⟩]).2 =
      [("a", PyValue.vStr "hi")]
    ∧ ("hi" : String) ≠ "  hi  " := by
  exact ⟨by decide, by decide⟩

/-- C4 (amended): for a parameter declared str, declared with any other
non-numeric non-bool type, or undeclared, the value passed is the stored text
with leading and trailing whitespace stripped (empty default included); it
equals the raw text exactly when the text has no edge whitespace. -/
theorem C4_string_pass_through :
    (∀ (sp : List (String × String)) (p : ParamSpec),
       (p.ann = none ∨ p.ann = some PyAnn.aStr ∨ p.ann = some PyAnn.aOther) →
       paramValue sp p = .ok (.vStr (pyStrip (alistFindD sp p.name ""))))
    ∧ (∀ s : String, noEdgeSpace s = true → pyStrip s = s) := by
  refine ⟨?_, pyStrip_eq_self⟩
  intro sp p h
  unfold paramValue
  rcases h with h | h | h <;> rw [h] <;> rfl

/-- Witness for C4 at a concrete untyped parameter and a concrete clean text. -/
theorem C4_witness :
    paramValue [("a", "  hi  ")] ⟨"a", none, false⟩ =
      .ok (.vStr (pyStrip (alistFindD [("a", "  hi  ")] "a" "")))
    ∧ pyStrip "hi" = "hi" :=
  ⟨C4_string_pass_through.1 [("a", "  hi  ")] ⟨"a", none, false⟩ (Or.inl rfl),
    C4_string_pass_through.2 "hi" (by decide)⟩

/-- C1 counterexample: with add_positive resolved and stored texts a = x and
b = 3, the step yields two trace entries, an argument error followed by an
invocation outcome, and the parameter b is still converted and bound; so the
step does not stop at one ArgumentError and the function is still invoked. -/
theorem C1_counterexample :
    (stepResults demoRegistry badParamStep).map StepResult.kind =
      [ResultKind.argumentError, ResultKind.failure]
    ∧ (convert_params badParamStep.params addPositive.params).2 =
        [("b", PyValue.vInt 3)] := by
  exact ⟨by decide, by decide⟩

/-- C1 (amended): when an int or float parameter text fails to parse, the
engine appends one ArgumentError naming that parameter, skips binding only
that parameter, keeps converting the remaining parameters (each failure adds
its own entry, in signature order), and still invokes the function with the
surviving bindings; the loop then moves on to the next sequence step. -/
theorem C1_conversion_failure_behavior :
    (∀ (reg : Registry) (step : StepObject) (f : FuncDef),
       step.type_ = "function" →
       regResolve reg step.module step.function = some f →
       stepResults reg step =
         (convert_params step.params f.params).1 ++
           [callFunc f (convert_params step.params f.params).2])
    ∧ (∀ (sp : List (String × String)) (specs : List ParamSpec),
         (convert_params sp specs).1 = specs.filterMap (argErrOf sp)
         ∧ (convert_params sp specs).2 = specs.filterMap (argBindOf sp))
    ∧ (∀ (sp : List (String × String)) (p : ParamSpec) (e : String),
         paramValue sp p = .error e →
         argErrOf sp p = some (argErrEntry p.name e) ∧ argBindOf sp p = none)
    ∧ (∀ (p e : String),
         (argErrEntry p e).kind = .argumentError
         ∧ (argErrEntry p e).message =
             "参数 " ++ asciiQuote ++ p ++ asciiQuote ++ " 类型转换失败: " ++ e) := by
  refine ⟨?_, ?_, ?_, ?_⟩
  · intro reg step f h1 h2
    exact stepResults_function reg step f h1 h2
  · intro sp specs
    rw [convert_params_eq]
    exact ⟨rfl, rfl⟩
  · intro sp p e hpe
    unfold argErrOf argBindOf
    rw [hpe]
    exact ⟨rfl, rfl⟩
  · intro p e
    exact ⟨rfl, rfl⟩

/-- Witness for C1 at the concrete failing step. -/
theorem C1_witness :
    stepResults demoRegistry badParamStep =
      (convert_params badParamStep.params addPositive.params).1 ++
        [callFunc addPositive (convert_params badParamStep.params addPositive.params).2]
    ∧ argErrOf badParamStep.params ⟨"a", some PyAnn.aInt, false⟩ =
        some (argErrEntry "a"
          ("invalid literal for int() with base 10: " ++ asciiQuote ++ "x" ++ asciiQuote)) := by
  constructor
  · exact C1_conversion_failure_behavior.1 demoRegistry badParamStep addPositive rfl rfl
  · exact (C1_conversion_failure_behavior.2.2.1 badParamStep.params
      ⟨"a", some PyAnn.aInt, false⟩ _ rfl).1

/-- C2 counterexample: a step with one failing parameter conversion yields two
trace entries, so a one-step sequence produces a trace of length two, not one
entry per step. -/
theorem C2_counterexample :
    (run_sequence demoRegistry [badParamStep]).length = 2
    ∧ ([badParamStep] : List StepObject).length = 1 := by
  exact ⟨by decide, rfl⟩

/-- C2 (amended): every step contributes at least one trace entry, in sequence
order, and no step prevents later steps from contributing (run distributes
over append); the control-then-unresolved scenario yields exactly the marker
and the not-found entries. The trace length equals the sequence length only
when no parameter conversion fails; a failing conversion adds an extra entry. -/
theorem C2_trace_shape :
    (∀ (reg : Registry) (S : List StepObject), S.length ≤ (run_sequence reg S).length)
    ∧ (∀ (reg : Registry) (S T : List StepObject),
         run_sequence reg (S ++ T) = run_sequence reg S ++ run_sequence reg T)
    ∧ (∀ (reg : Registry) (s : StepObject), 1 ≤ (stepResults reg s).length)
    ∧ run_sequence demoRegistry [forStep, unresolvedStep] =
        [⟨.controlMarker, "for"⟩, ⟨.notFound, "函数未找到"⟩] := by
  exact ⟨run_sequence_length, run_sequence_append, stepResults_length_pos, by decide⟩

/-- C6: two steps created separately mint distinct identities and start with
their own empty parameter dicts, and the parameter-change callback touches only
the step whose identity matches: every other step keeps its parameter state. -/
theorem C6_step_isolation :
    (∀ (g : Nat) (t1 t2 : String) (m1 f1 c1 m2 f2 c2 : Option String),
       (mkStepObject g t1 m1 f1 c1).1.id ≠
         (mkStepObject (mkStepObject g t1 m1 f1 c1).2 t2 m2 f2 c2).1.id
       ∧ (mkStepObject g t1 m1 f1 c1).1.params = []
       ∧ (mkStepObject (mkStepObject g t1 m1 f1 c1).2 t2 m2 f2 c2).1.params = [])
    ∧ (∀ (steps : List StepObject) (tid : Nat) (p v : String) (s : StepObject),
         s ∈ steps → s.id ≠ tid → s ∈ on_param_changed steps tid p v)
    ∧ (∀ (s1 s2 : StepObject) (p v : String),
         s1.id ≠ s2.id →
         on_param_changed [s1, s2] s2.id p v = [s1, setStepParam s2 p v]
         ∧ on_param_changed [s1, s2] s1.id p v = [setStepParam s1 p v, s2]) := by
  refine ⟨?_, ?_, ?_⟩
  · intro g t1 t2 m1 f1 c1 m2 f2 c2
    refine ⟨?_, rfl, rfl⟩
    simp only [mkStepObject]
    omega
  · intro steps tid p v s hs hne
    unfold on_param_changed
    exact List.mem_map.mpr ⟨s, hs, by rw [if_neg hne]⟩
  · intro s1 s2 p v hne
    constructor
    · simp [on_param_changed, hne]
    · simp [on_param_changed, Ne.symm hne]

/-- Witness for C6 at two concrete steps referencing the same function. -/
theorem C6_witness :
    step1demo ∈ on_param_changed [step1demo, step2demo] step2demo.id "a" "1"
    ∧ on_param_changed [step1demo, step2demo] step2demo.id "a" "1" =
        [step1demo, setStepParam step2demo "a" "1"] := by
  constructor
  · exact C6_step_isolation.2.1 [step1demo, step2demo] step2demo.id "a" "1" step1demo
      (by simp) (by decide)
  · exact (C6_step_isolation.2.2 step1demo step2demo "a" "1" (by decide)).1

theorem loadStep_error (acc : Registry × List (String × String)) (u : SourceUnit)
    (e : String) (h1 : isTestSourceFile u.filename = true) (h2 : u.load = .error e) :
    loadStep acc u = (acc.1, acc.2 ++ [(moduleNameOf u, e)]) := by
  unfold loadStep
  simp [h1, h2]

/-- C7: a source unit whose load raises contributes nothing to the registry
and exactly one diagnostic carrying its module name and error, and the
remaining units are processed exactly as they would be without it. -/
theorem C7_load_failure_isolated (pre : List SourceUnit) (u : SourceUnit)
    (post : List SourceUnit) (e : String)
    (h1 : isTestSourceFile u.filename = true) (h2 : u.load = .error e) :
    (load_test_functions (pre ++ u :: post)).1 = (load_test_functions (pre ++ post)).1
    ∧ (load_test_functions (pre ++ u :: post)).2 =
        (load_test_functions pre).2 ++
          (moduleNameOf u, e) :: diagsFrom (load_test_functions pre).1 post
    ∧ (load_test_functions (pre ++ post)).2 =
        (load_test_functions pre).2 ++ diagsFrom (load_test_functions pre).1 post := by
  have hfull : load_test_functions (pre ++ u :: post) =
      loadUnits (loadStep (load_test_functions pre) u) post := by
    unfold load_test_functions
    rw [loadUnits_append, loadUnits_cons]
  have hother : load_test_functions (pre ++ post) =
      loadUnits ((load_test_functions pre).1, (load_test_functions pre).2) post := by
    unfold load_test_functions
    rw [loadUnits_append]
  rw [hfull, hother, loadStep_error (load_test_functions pre) u e h1 h2]
  rw [loadUnits_split post (load_test_functions pre).1
    ((load_test_functions pre).2 ++ [(moduleNameOf u, e)])]
  rw [loadUnits_split post (load_test_functions pre).1 (load_test_functions pre).2]
  unfold diagsFrom
  refine ⟨rfl, ?_, rfl⟩
  simp

/-- Witness for C7 at a concrete failing unit followed by a loading unit. -/
theorem C7_witness :
    (load_test_functions ([] ++ badUnit :: [testMathUnit])).1 =
      (load_test_functions ([] ++ [testMathUnit])).1
    ∧ (load_test_functions ([] ++ badUnit :: [testMathUnit])).2 =
        (load_test_functions []).2 ++
          (moduleNameOf badUnit, "boom") ::
            diagsFrom (load_test_functions []).1 [testMathUnit] := by
  have h := C7_load_failure_isolated [] badUnit [testMathUnit] "boom" (by decide) rfl
  exact ⟨h.1, h.2.1⟩

/-- C8: a load builds the registry from the sources alone, discarding any
previous mapping, so a function no unit provides resolves to nothing after the
load, and repeating the load with the same sources gives the same result. -/
theorem C8_reload_replaces :
    (∀ (old : Registry) (units : List SourceUnit),
       load_into old units = load_test_functions units)
    ∧ (∀ (units : List SourceUnit) (m fn : String),
         (∀ u ∈ units, unitProvides u m fn = false) →
         regResolve (load_test_functions units).1 (some m) (some fn) = none)
    ∧ (∀ (old : Registry) (units : List SourceUnit),
         load_into (load_into old units).1 units = load_into old units) := by
  refine ⟨fun _ _ => rfl, ?_, fun _ _ => rfl⟩
  intro units m fn h
  unfold load_test_functions
  rw [loadUnits_resolve units ([], []) m fn h]
  rfl

/-- Witness for C8: a function name no unit provides is absent after the load. -/
theorem C8_witness :
    regResolve (load_test_functions [testMathUnit]).1 (some "test_math") (some "nope") =
      none := by
  refine C8_reload_replaces.2.1 [testMathUnit] "test_math" "nope" ?_
  intro u hu
  rw [List.mem_singleton] at hu
  subst hu
  decide

/-- C9 counterexample: removal at an out-of-range row returns nothing and
leaves the sequence untouched; no index error is surfaced to the caller. -/
theorem C9_counterexample :
    takeItem [forStep] 5 = (none, [forStep]) := by
  decide

/-- C9 (amended): removal at any invalid row, negative or past the end, is a
silent no-op: it returns no step and the sequence is unchanged. -/
theorem C9_invalid_index_noop (xs : List StepObject) (row : Int)
    (h : row < 0 ∨ (xs.length : Int) ≤ row) : takeItem xs row = (none, xs) := by
  unfold takeItem
  rw [if_neg]
  rintro ⟨hx1, hx2⟩
  rcases h with h | h
  · omega
  · omega

/-- Witness for C9 on the empty sequence. -/
theorem C9_witness : takeItem [] 0 = (none, []) :=
  C9_invalid_index_noop [] 0 (Or.inr (by decide))

/-- C10: a module key appears in the loaded registry only when some presented
unit passes the filename filter, loads, and holds at least one public
callable; and resolution is total: a missing module or function name yields
nothing rather than an error. -/
theorem C10_registry_wellformed :
    (∀ (units : List SourceUnit) (m : String),
       regHasModule (load_test_functions units).1 m = true →
       ∃ u ∈ units, unitContributesModule u m = true)
    ∧ (∀ (r : Registry) (m fn : String),
         regHasModule r m = false → regResolve r (some m) (some fn) = none)
    ∧ (∀ (r : Registry) (fn : Option String), regResolve r none fn = none)
    ∧ (∀ (r : Registry) (m : Option String), regResolve r m none = none) := by
  refine ⟨?_, regResolve_of_not_hasModule, ?_, ?_⟩
  · intro units m h
    unfold load_test_functions at h
    rcases loadUnits_hasModule units ([], []) m h with h2 | h2
    · simp [regHasModule, alistFind] at h2
    · exact h2
  · intro r fn
    cases fn <;> rfl
  · intro r m
    cases m <;> rfl

/-- Witness for C10 at the demo registry. -/
theorem C10_witness :
    (∃ u ∈ [testMathUnit], unitContributesModule u "test_math" = true)
    ∧ regResolve demoRegistry (some "missing") (some "f") = none := by
  constructor
  · exact C10_registry_wellformed.1 [testMathUnit] "test_math" (by decide)
  · exact C10_registry_wellformed.2.1 demoRegistry "missing" "f" (by decide)
